import Mathlib

/-!
Verification of the property scorer (`score/scorer.py`).

The scoring engine is shallowly embedded: Python floats become `ℝ`,
Python dicts with insertion order become association lists, fallible
code (Python exceptions such as `ZeroDivisionError` / `TypeError` /
`ValueError`) is modelled with `Except` / `Option`, and Python's
truthiness tests (`if self.tol`, `if total_weight`, ...) become
explicit `≠ 0` / `≠ ""` tests.
-/

/-- Engine-wide scoring parameters as stored by `PropertyScorer.__init__`
(lines 109-117 of `scorer.py`): the stored fields are the constructor
arguments after clamping. -/
structure Params where
  max_quality : ℤ
  q_floor : ℝ
  q_weight : ℝ
  qual_exp : ℝ
  r_floor : ℝ
  tol : ℝ
  eps : ℝ

/-- Model of `PropertyScorer.__init__`: clamp `quality_floor`, `quality_weight`,
`raw_floor` into `[0,1]`, clamp `qual_exp` to `max 0`, and store
`must_have_tolerance` and `margin_epsilon` unchanged. -/
def mkParams (max_quality : ℤ) (quality_floor quality_weight qual_exp raw_floor
    must_have_tolerance margin_epsilon : ℝ) : Params :=
  { max_quality := max_quality
    q_floor := max 0 (min quality_floor 1)
    q_weight := max 0 (min quality_weight 1)
    qual_exp := max 0 qual_exp
    r_floor := max 0 (min raw_floor 1)
    tol := must_have_tolerance
    eps := margin_epsilon }

/-- One factor configuration dict.  `mode` is kept as a string, as in the
Python dict; `lower`/`upper` are optional (the validator fills them);
`nearest_k`/`farthest_k`/`percentile` are optional with the validator's
`setdefault` defaults; `decay_rate` defaults to `1.0` via `cfg.get`. -/
structure FactorCfg where
  mode : String
  target : ℝ
  lower : Option ℝ := none
  upper : Option ℝ := none
  direction : ℤ
  weight : ℝ
  multi : Bool := false
  aggregation : Option String := none
  nearest_k : Option ℕ := none
  farthest_k : Option ℕ := none
  percentile : Option ℝ := none
  decay_function : Option String := none
  decay_rate : Option ℝ := none

/-- Accessor for `cfg["lower"]` as read after validation (the validator stores the
defaulted value `cfg.get("lower", target)` back into the dict). -/
def FactorCfg.l (c : FactorCfg) : ℝ := c.lower.getD c.target

/-- Accessor for `cfg["upper"]` as read after validation. -/
def FactorCfg.u (c : FactorCfg) : ℝ := c.upper.getD c.target

/-- Model of `PropertyScorer._raw` (lines 203-234): raw-match score of one value.
must_have is pass/fail with optional soft tolerance (`if self.tol` is
Python truthiness, i.e. `tol ≠ 0`); nice_to_have is a hard band cutoff
with linear decay to the band edge, floored at `r_floor` inside the
band. -/
noncomputable def rawFn (P : Params) (cfg : FactorCfg) (x : ℝ) : ℝ :=
  let t := cfg.target
  let l := cfg.l
  let u := cfg.u
  if cfg.mode = "must_have" then
    if cfg.direction < 0 then
      if x ≤ t then 1
      else if P.tol ≠ 0 ∧ x ≤ t + P.tol then 1 - (x - t) / P.tol
      else 0
    else
      if x ≥ t then 1
      else if P.tol ≠ 0 ∧ x ≥ t - P.tol then 1 - (t - x) / P.tol
      else 0
  else
    if x < l ∨ x > u then 0
    else
      let raw : ℝ :=
        if cfg.direction < 0 then
          if x ≤ t then 1 else 1 - (x - t) / (u - t)
        else
          if x ≥ t then 1 else 1 - (t - x) / (t - l)
      max P.r_floor raw

/-- Model of `PropertyScorer._qual` (lines 236-245): clamp the rating to
`[1, max_quality]`, normalise, optionally warp exponentially, and map
into `[q_floor, 1]`.  The two Python `ZeroDivisionError` sites
(`max_quality == 1`, and `exp(qual_exp) - 1 == 0` when `qual_exp ≠ 1`)
are modelled as `none`. -/
noncomputable def qualFn (P : Params) (q : ℝ) : Option ℝ :=
  let qc := max 1 (min q (P.max_quality : ℝ))
  if (P.max_quality : ℝ) - 1 = 0 then none
  else
    let norm := (qc - 1) / ((P.max_quality : ℝ) - 1)
    if P.qual_exp ≠ 1 then
      if Real.exp P.qual_exp - 1 = 0 then none
      else some (P.q_floor + (1 - P.q_floor) *
        ((Real.exp (P.qual_exp * norm) - 1) / (Real.exp P.qual_exp - 1)))
    else some (P.q_floor + (1 - P.q_floor) * norm)

/-- The geometric blend of line 312:
`fs = (r ** (1 - q_weight)) * (qual ** q_weight)` with real
exponentiation (Python float `**` on nonnegative bases agrees with
`Real.rpow`, including `0.0 ** 0.0 = 1.0`). -/
noncomputable def blend (P : Params) (r qn : ℝ) : ℝ :=
  r ^ ((1 : ℝ) - P.q_weight) * qn ^ P.q_weight

/-- Python `statistics.mean` on a nonempty list. -/
noncomputable def listMean (xs : List ℝ) : ℝ := xs.sum / xs.length

/-- Ascending sort of a list of reals (`sorted(...)` in Python). -/
noncomputable def listSort (xs : List ℝ) : List ℝ :=
  xs.mergeSort (fun a b => decide (a ≤ b))

/-- Python `statistics.median` on a nonempty list: middle element for odd
length, average of the two middle elements for even length. -/
noncomputable def listMedian (xs : List ℝ) : ℝ :=
  let s := listSort xs
  let n := s.length
  if n % 2 = 1 then s.getD (n / 2) 0
  else (s.getD (n / 2 - 1) 0 + s.getD (n / 2) 0) / 2

/-- Model of `np.percentile(xs, p)` with the default linear interpolation, for
`p ∈ [0,100]` on a nonempty list: index `h = (p/100)·(n−1)` into the
sorted list, interpolating between the neighbouring ranks. -/
noncomputable def percentileLin (xs : List ℝ) (p : ℝ) : ℝ :=
  let s := listSort xs
  let n := s.length
  let h := p / 100 * ((n : ℝ) - 1)
  let i := (⌊h⌋).toNat
  if i + 1 < n then s.getD i 0 + (h - i) * (s.getD (i + 1) 0 - s.getD i 0)
  else s.getD (n - 1) 0

/-- Model of `_weighted_average` (lines 14-17): weighted average, falling back to
the plain mean when the weights sum to zero (Python truthiness of
`total_w`). -/
noncomputable def weightedAverage (values weights : List ℝ) : ℝ :=
  let total_w := weights.sum
  if total_w ≠ 0 then
    ((values.zip weights).map (fun p => p.1 * p.2)).sum / total_w
  else listMean values

/-- Model of `_decay_weights` (lines 20-49): per-value decay weights from the
distance to the target, normalised by `max (upper - lower) 1e-12`. -/
noncomputable def decayWeights (vals : List ℝ) (cfg : FactorCfg) : List ℝ :=
  let fn := cfg.decay_function.getD "linear"
  let rate := cfg.decay_rate.getD 1
  let rng := max (cfg.u - cfg.l) (1e-12 : ℝ)
  let dists := vals.map (fun v => |v - cfg.target| / rng)
  if fn = "exp" then dists.map (fun d => Real.exp (-(rate * d)))
  else if fn = "quadratic" then dists.map (fun d => max 0 (1 - (rate * d) ^ 2))
  else dists.map (fun d => max 0 (1 - rate * d))

/-- Model of `PropertyScorer._aggregate` (lines 165-201): band-filter, then
aggregate.  `.ok none` is Python's `return None` (empty band);
`.error ()` models the runtime exceptions the Python aggregations can
raise (`np.percentile` on a percentile outside `[0,100]`,
`statistics.mean` on an empty `k`-slice). -/
noncomputable def aggregate (cfg : FactorCfg) (vals : List ℝ) :
    Except Unit (Option ℝ) :=
  let in_band := vals.filter (fun v => decide (cfg.l ≤ v ∧ v ≤ cfg.u))
  if in_band = [] then .ok none
  else if cfg.decay_function.getD "" ≠ "" then
    .ok (some (weightedAverage in_band (decayWeights in_band cfg)))
  else
    match cfg.aggregation with
    | some "mean" => .ok (some (listMean in_band))
    | some "median" => .ok (some (listMedian in_band))
    | some "min" => .ok (some (in_band.min?.getD 0))
    | some "max" => .ok (some (in_band.max?.getD 0))
    | some "k_nearest" =>
      let k := cfg.nearest_k.getD 1
      let pick := (listSort in_band).take k
      if pick = [] then .error () else .ok (some (listMean pick))
    | some "k_farthest" =>
      let k := cfg.farthest_k.getD 1
      let pick := ((listSort in_band).reverse).take k
      if pick = [] then .error () else .ok (some (listMean pick))
    | some "percentile" =>
      let p := cfg.percentile.getD (1 / 2) * 100
      if p < 0 ∨ p > 100 then .error ()
      else .ok (some (percentileLin in_band p))
    | _ => .ok (some (listMean in_band))

/-- A raw input value for one factor: Python `raw` dict values are
either a scalar or a list of numerics. -/
inductive RawVal
  | scalar (x : ℝ)
  | vlist (xs : List ℝ)

/-- Outcome of computing the raw-match `r` for one factor inside the
`score_property` loop (lines 280-298). -/
inductive RRes
  /-- multi factor given a non-list value: `continue` (line 282-285). -/
  | skip
  /-- a Python exception: `float(val)` on a list, or an aggregation
  error. -/
  | exc
  /-- the computed raw-match. -/
  | ok (r : ℝ)

/-- Lines 280-298 of `score_property`: dispatch on `multi` and compute
`r`; an empty in-band aggregation gives `r = 0`. -/
noncomputable def factorR (P : Params) (cfg : FactorCfg) (val : RawVal) : RRes :=
  if cfg.multi then
    match val with
    | .vlist xs =>
      match aggregate cfg xs with
      | .error _ => .exc
      | .ok none => .ok 0
      | .ok (some x) => .ok (rawFn P cfg x)
    | .scalar _ => .skip
  else
    match val with
    | .scalar x => .ok (rawFn P cfg x)
    | .vlist _ => .exc

/-- Outcome of one iteration of the `score_property` loop for one
factor. -/
inductive StepOut
  /-- the factor contributes nothing (`continue`). -/
  | skip
  /-- a Python exception propagates out of `score_property`. -/
  | exc
  /-- must_have failure: `return 0.0` (lines 300-304). -/
  | stop
  /-- add `w * fs` to the weighted sum and `w` to the total weight. -/
  | contrib (w fs : ℝ)

/-- One iteration of the `score_property` loop (lines 268-317) for
factor `f` with config `cfg`. -/
noncomputable def stepFactor (P : Params) (raw : String → Option RawVal)
    (quality : String → Option ℝ) (f : String) (cfg : FactorCfg) : StepOut :=
  if cfg.mode = "irrelevant" then .skip
  else
    match raw f with
    | none => .skip
    | some val =>
      match factorR P cfg val with
      | .skip => .skip
      | .exc => .exc
      | .ok r =>
        if cfg.mode = "must_have" ∧ r = 0 then .stop
        else
          match quality f with
          | none => .contrib cfg.weight r
          | some qv =>
            match qualFn P qv with
            | none => .exc
            | some qn => .contrib cfg.weight (blend P r qn)

/-- The `score_property` loop from a given accumulator state
(`weighted_sum`, `total_weight`); `none` models a propagating Python
exception.  The final line 319 returns `weighted_sum / total_weight`
when `total_weight` is truthy and `0.0` otherwise. -/
noncomputable def scoreFrom (P : Params) (raw : String → Option RawVal)
    (quality : String → Option ℝ) :
    List (String × FactorCfg) → ℝ → ℝ → Option ℝ
  | [], ws, tw => some (if tw ≠ 0 then ws / tw else 0)
  | (f, cfg) :: rest, ws, tw =>
    match stepFactor P raw quality f cfg with
    | .skip => scoreFrom P raw quality rest ws tw
    | .exc => none
    | .stop => some 0
    | .contrib w fs => scoreFrom P raw quality rest (ws + w * fs) (tw + w)

/-- Model of `PropertyScorer.score_property` (lines 247-319) over the validated
profile, an association list in dict insertion order. -/
noncomputable def scoreProperty (P : Params) (profile : List (String × FactorCfg))
    (raw : String → Option RawVal) (quality : String → Option ℝ) : Option ℝ :=
  scoreFrom P raw quality profile 0 0

/-- The set `PropertyScorer.ALLOWED_AGG`. -/
def allowedAgg : List String :=
  ["mean", "median", "min", "max", "k_nearest", "k_farthest", "percentile"]

/-- The auto-nudged upper bound of `_validate` (lines 142-147):
`upper = cfg.get("upper", target)`, pushed to `target + eps` when a
nice_to_have band collapses from above. -/
noncomputable def nudgedU (eps : ℝ) (cfg : FactorCfg) : ℝ :=
  if cfg.mode = "nice_to_have" ∧ cfg.upper.getD cfg.target ≤ cfg.target then
    cfg.target + eps
  else cfg.upper.getD cfg.target

/-- The auto-nudged lower bound of `_validate` (lines 141-150). -/
noncomputable def nudgedL (eps : ℝ) (cfg : FactorCfg) : ℝ :=
  if cfg.mode = "nice_to_have" ∧ cfg.lower.getD cfg.target ≥ cfg.target then
    cfg.target - eps
  else cfg.lower.getD cfg.target

/-- Model of `PropertyScorer._validate` (lines 122-163) for one factor: check
mode / direction / weight, default and auto-nudge the bounds, check
`lower ≤ target ≤ upper`, and for `multi` check the aggregation and
fill the `setdefault` defaults.  Returns the updated config (the Python
code mutates the dict in place). -/
noncomputable def validateFactor (eps : ℝ) (cfg : FactorCfg) :
    Except String FactorCfg :=
  if cfg.mode ∉ ["must_have", "nice_to_have", "irrelevant"] then
    .error "invalid mode"
  else if cfg.direction ≠ -1 ∧ cfg.direction ≠ 1 then
    .error "direction must be -1 or +1"
  else if ¬ cfg.weight > 0 then .error "weight must be > 0"
  else
    let t := cfg.target
    let u := nudgedU eps cfg
    let l := nudgedL eps cfg
    if ¬ (l ≤ t ∧ t ≤ u) then .error "require lower <= target <= upper"
    else
      let cfg1 := { cfg with lower := some l, upper := some u }
      if cfg1.multi then
        if (cfg1.aggregation.getD "") ∉ allowedAgg then
          .error "invalid aggregation"
        else
          .ok { cfg1 with
            nearest_k := some (cfg1.nearest_k.getD 1)
            farthest_k := some (cfg1.farthest_k.getD 1)
            percentile := some (cfg1.percentile.getD (1 / 2)) }
      else .ok cfg1

/-- Model of `PropertyScorer._validate` over the whole profile: the first
failing factor raises. -/
noncomputable def validateProfile (eps : ℝ) :
    List (String × FactorCfg) → Except String (List (String × FactorCfg))
  | [] => .ok []
  | (f, cfg) :: rest =>
    match validateFactor eps cfg with
    | .error e => .error e
    | .ok c =>
      match validateProfile eps rest with
      | .error e => .error e
      | .ok r => .ok ((f, c) :: r)

/-- A constructed scorer: the clamped parameters and the validated
profile. -/
structure Scorer where
  params : Params
  profile : List (String × FactorCfg)

/-- Model of `PropertyScorer.__init__`: clamp the parameters, then validate the
profile; any `ValueError` from validation aborts construction. -/
noncomputable def mkScorer (profile : List (String × FactorCfg))
    (max_quality : ℤ) (quality_floor quality_weight qual_exp raw_floor
    must_have_tolerance margin_epsilon : ℝ) : Except String Scorer :=
  let P := mkParams max_quality quality_floor quality_weight qual_exp raw_floor
    must_have_tolerance margin_epsilon
  (validateProfile P.eps profile).map (fun prof => ⟨P, prof⟩)

/-- Success test for `Except`, written out to avoid library naming drift. -/
def isOkE {ε α : Type} : Except ε α → Bool
  | .ok _ => true
  | .error _ => false

/-!  Concrete fixtures used by witnesses and counterexamples. -/

/-- Default engine parameters (`max_quality=5, quality_floor=0.10,
quality_weight=0.80, qual_exp=1.0, raw_floor=0.05,
must_have_tolerance=0.0, margin_epsilon=1e-6`). -/
noncomputable def pDef : Params := mkParams 5 (1/10) (8/10) 1 (1/20) 0 (1/1000000)

/-- Default parameters except `qual_exp = 0.0` (accepted by the
constructor's clamp `max(0.0, qual_exp)`). -/
noncomputable def pQe0 : Params := mkParams 5 (1/10) (8/10) 0 (1/20) 0 (1/1000000)

/-- Default parameters except `quality_weight = 1.0` (quality-only
blend). -/
noncomputable def pQw1 : Params := mkParams 5 (1/10) 1 1 (1/20) 0 (1/1000000)

/-- A plain nice_to_have factor: band `[0,2]`, target `1`, smaller
better, weight `1`. -/
def cfgNice : FactorCfg :=
  { mode := "nice_to_have", target := 1, lower := some 0, upper := some 2,
    direction := -1, weight := 1 }

/-- A must_have factor: target `15`, smaller better, weight `1`. -/
def cfgMust : FactorCfg :=
  { mode := "must_have", target := 15, lower := some 0, upper := some 30,
    direction := -1, weight := 1 }

/-- A multi nice_to_have factor with band `[0,2]` and mean
aggregation. -/
def cfgMultiNice : FactorCfg :=
  { mode := "nice_to_have", target := 1, lower := some 0, upper := some 2,
    direction := -1, weight := 1, multi := true, aggregation := some "mean" }

/-- A multi must_have factor with mean aggregation. -/
def cfgMultiMust : FactorCfg :=
  { mode := "must_have", target := 15, lower := some 0, upper := some 30,
    direction := -1, weight := 1, multi := true, aggregation := some "mean" }

/-- A nice_to_have factor with no explicit bounds (they default to the
target and must be auto-nudged). -/
def cfgNudge : FactorCfg :=
  { mode := "nice_to_have", target := 0, direction := -1, weight := 1 }

/-- Raw input supplying only factor `"f" ↦ 1.0`. -/
noncomputable def raw1 : String → Option RawVal :=
  fun f => if f = "f" then some (.scalar 1) else none

/-- Raw input supplying `"m" ↦ 16.0`. -/
noncomputable def rawM : String → Option RawVal :=
  fun f => if f = "m" then some (.scalar 16) else none

/-- Raw input supplying `"g" ↦ [10.0]` and `"f" ↦ 1.0`. -/
noncomputable def rawG : String → Option RawVal :=
  fun f =>
    if f = "g" then some (.vlist [10])
    else if f = "f" then some (.scalar 1) else none

/-- Raw input supplying the scalar `"g" ↦ 100.0` (not a list) and
`"f" ↦ 1.0`. -/
noncomputable def rawS : String → Option RawVal :=
  fun f =>
    if f = "g" then some (.scalar 100)
    else if f = "f" then some (.scalar 1) else none

/-- Raw input supplying `"g" ↦ [100.0]`. -/
noncomputable def rawH : String → Option RawVal :=
  fun f => if f = "g" then some (.vlist [100]) else none

/-- Quality input rating factor `"f"` at `5`. -/
noncomputable def qual5 : String → Option ℝ :=
  fun f => if f = "f" then some 5 else none

/-- Empty quality input (raw-only scoring). -/
def qualNone : String → Option ℝ := fun _ => none

/-- The raw-match evaluator always lands in `[0,1]` once `raw_floor` is
clamped into `[0,1]`, for any mode, direction and value. -/
lemma rawFn_mem (P : Params) (cfg : FactorCfg) (x : ℝ)
    (h0 : 0 ≤ P.r_floor) (h1 : P.r_floor ≤ 1) :
    0 ≤ rawFn P cfg x ∧ rawFn P cfg x ≤ 1 := by
  simp only [rawFn]
  split
  · -- must_have
    split
    · -- direction < 0
      split
      · exact ⟨zero_le_one, le_refl 1⟩
      · split
        · rename_i hxt h
          obtain ⟨htol, hxle⟩ := h
          push_neg at hxt
          have htpos : 0 < P.tol := by
            rcases lt_trichotomy P.tol 0 with hneg | hz | hpos
            · linarith
            · exact absurd hz htol
            · exact hpos
          have hd1 : (x - cfg.target) / P.tol ≤ 1 := by
            rw [div_le_one htpos]; linarith
          have hd0 : 0 ≤ (x - cfg.target) / P.tol :=
            div_nonneg (by linarith) htpos.le
          constructor <;> linarith
        · exact ⟨le_refl 0, zero_le_one⟩
    · -- direction ≥ 0
      split
      · exact ⟨zero_le_one, le_refl 1⟩
      · split
        · rename_i hxt h
          obtain ⟨htol, hxge⟩ := h
          push_neg at hxt
          have htpos : 0 < P.tol := by
            rcases lt_trichotomy P.tol 0 with hneg | hz | hpos
            · linarith
            · exact absurd hz htol
            · exact hpos
          have hd1 : (cfg.target - x) / P.tol ≤ 1 := by
            rw [div_le_one htpos]; linarith
          have hd0 : 0 ≤ (cfg.target - x) / P.tol :=
            div_nonneg (by linarith) htpos.le
          constructor <;> linarith
        · exact ⟨le_refl 0, zero_le_one⟩
  · -- nice_to_have path
    split
    · exact ⟨le_refl 0, zero_le_one⟩
    · rename_i hband
      push_neg at hband
      obtain ⟨hlx, hxu⟩ := hband
      refine ⟨le_max_of_le_left h0, ?_⟩
      apply max_le h1
      split
      · split
        · exact le_refl 1
        · rename_i hxt
          push_neg at hxt
          have hut : 0 < cfg.u - cfg.target := by linarith
          have : 0 ≤ (x - cfg.target) / (cfg.u - cfg.target) :=
            div_nonneg (by linarith) hut.le
          linarith
      · split
        · exact le_refl 1
        · rename_i hxt
          push_neg at hxt
          have htl : 0 < cfg.target - cfg.l := by linarith
          have : 0 ≤ (cfg.target - x) / (cfg.target - cfg.l) :=
            div_nonneg (by linarith) htl.le
          linarith

/-- The clamped quality rating normalises into `[0,1]` whenever
`max_quality ≠ 1`. -/
lemma normClamp_mem (maxq : ℤ) (q : ℝ) (h : maxq ≠ 1) :
    0 ≤ (max 1 (min q (maxq : ℝ)) - 1) / ((maxq : ℝ) - 1) ∧
    (max 1 (min q (maxq : ℝ)) - 1) / ((maxq : ℝ) - 1) ≤ 1 := by
  rcases (by omega : maxq ≤ 0 ∨ 2 ≤ maxq) with hle | hge
  · have hm0 : (maxq : ℝ) ≤ 0 := by exact_mod_cast hle
    have hq : max 1 (min q (maxq : ℝ)) = 1 := by
      apply max_eq_left
      have : min q (maxq : ℝ) ≤ (maxq : ℝ) := min_le_right _ _
      linarith
    rw [hq]
    norm_num
  · have h2 : (2 : ℝ) ≤ (maxq : ℝ) := by exact_mod_cast hge
    have hd : 0 < (maxq : ℝ) - 1 := by linarith
    constructor
    · apply div_nonneg _ hd.le
      have := le_max_left (1 : ℝ) (min q (maxq : ℝ))
      linarith
    · rw [div_le_one hd]
      have : max 1 (min q (maxq : ℝ)) ≤ (maxq : ℝ) :=
        max_le (by linarith) (min_le_right _ _)
      linarith

/-- The exponential warp maps `[0,1]` into `[0,1]` for a positive
exponent. -/
lemma warp_mem (k n : ℝ) (hk : 0 < k) (hn0 : 0 ≤ n) (hn1 : n ≤ 1) :
    0 ≤ (Real.exp (k * n) - 1) / (Real.exp k - 1) ∧
    (Real.exp (k * n) - 1) / (Real.exp k - 1) ≤ 1 := by
  have hden : 0 < Real.exp k - 1 := by
    have h := Real.exp_lt_exp.mpr hk
    rw [Real.exp_zero] at h
    linarith
  have hnum0 : 0 ≤ Real.exp (k * n) - 1 := by
    have h := Real.exp_le_exp.mpr (mul_nonneg hk.le hn0)
    rw [Real.exp_zero] at h
    linarith
  have hnum1 : Real.exp (k * n) - 1 ≤ Real.exp k - 1 := by
    have h : Real.exp (k * n) ≤ Real.exp k :=
      Real.exp_le_exp.mpr (by nlinarith)
    linarith
  exact ⟨div_nonneg hnum0 hden.le, by rw [div_le_one hden]; linarith⟩

/-- Mapping a `[0,1]` value through `floor + (1 - floor) * w` stays in
`[floor, 1]`. -/
lemma floorAffine_mem (fl w : ℝ) (h1 : fl ≤ 1) (hw0 : 0 ≤ w) (hw1 : w ≤ 1) :
    fl ≤ fl + (1 - fl) * w ∧ fl + (1 - fl) * w ≤ 1 := by
  constructor <;> nlinarith

/-- Whenever the quality normaliser returns a value (no
`ZeroDivisionError`), the value lies in `[q_floor, 1]`, given the
clamps `q_floor ∈ [0,1]` and `qual_exp ≥ 0` guaranteed by the
constructor. -/
lemma qualFn_mem (P : Params) (q v : ℝ) (hqf1 : P.q_floor ≤ 1)
    (hqe : 0 ≤ P.qual_exp) (h : qualFn P q = some v) :
    P.q_floor ≤ v ∧ v ≤ 1 := by
  simp only [qualFn] at h
  split at h
  · exact absurd h (by simp)
  · rename_i hd
    have hmq : P.max_quality ≠ 1 := by
      intro heq
      apply hd
      rw [heq]
      norm_num
    have hnorm := normClamp_mem P.max_quality q hmq
    split at h
    · rename_i hne
      split at h
      · exact absurd h (by simp)
      · rename_i hexp
        have hkpos : 0 < P.qual_exp := by
          rcases eq_or_lt_of_le hqe with h0 | h0
          · exfalso
            apply hexp
            rw [← h0, Real.exp_zero]
            ring
          · exact h0
        have hw := warp_mem P.qual_exp _ hkpos hnorm.1 hnorm.2
        have hv := Option.some.inj h
        rw [← hv]
        exact floorAffine_mem _ _ hqf1 hw.1 hw.2
    · have hv := Option.some.inj h
      rw [← hv]
      exact floorAffine_mem _ _ hqf1 hnorm.1 hnorm.2

/-- The quality normaliser is total (returns `some`) whenever
`qual_exp > 0` and `max_quality ≠ 1`. -/
lemma qualFn_some (P : Params) (q : ℝ) (hqe : 0 < P.qual_exp)
    (hmq : P.max_quality ≠ 1) : ∃ v, qualFn P q = some v := by
  simp only [qualFn]
  have hd : ¬ ((P.max_quality : ℝ) - 1 = 0) := by
    intro h
    apply hmq
    have : (P.max_quality : ℝ) = 1 := by linarith
    exact_mod_cast this
  rw [if_neg hd]
  by_cases h1 : P.qual_exp ≠ 1
  · rw [if_pos h1]
    have hden : ¬ (Real.exp P.qual_exp - 1 = 0) := by
      have h := Real.exp_lt_exp.mpr hqe
      rw [Real.exp_zero] at h
      intro hc
      linarith
    rw [if_neg hden]
    exact ⟨_, rfl⟩
  · rw [if_neg h1]
    exact ⟨_, rfl⟩

/-- The geometric blend of two `[0,1]` scores stays in `[0,1]` when the
blend weight is in `[0,1]`. -/
lemma blend_mem (P : Params) (r qn : ℝ) (hr0 : 0 ≤ r) (hr1 : r ≤ 1)
    (hq0 : 0 ≤ qn) (hq1 : qn ≤ 1) (hw0 : 0 ≤ P.q_weight)
    (hw1 : P.q_weight ≤ 1) : 0 ≤ blend P r qn ∧ blend P r qn ≤ 1 := by
  unfold blend
  constructor
  · exact mul_nonneg (Real.rpow_nonneg hr0 _) (Real.rpow_nonneg hq0 _)
  · have ha : r ^ ((1 : ℝ) - P.q_weight) ≤ 1 :=
      Real.rpow_le_one hr0 hr1 (by linarith)
    have hb : qn ^ P.q_weight ≤ 1 := Real.rpow_le_one hq0 hq1 hw0
    have hc : 0 ≤ qn ^ P.q_weight := Real.rpow_nonneg hq0 _
    exact mul_le_one₀ ha hc hb

/-- Any raw-match produced inside the loop (including the forced `0`
for an empty in-band aggregation) lies in `[0,1]`. -/
lemma factorR_mem (P : Params) (cfg : FactorCfg) (val : RawVal) (r : ℝ)
    (hrf0 : 0 ≤ P.r_floor) (hrf1 : P.r_floor ≤ 1)
    (h : factorR P cfg val = .ok r) : 0 ≤ r ∧ r ≤ 1 := by
  simp only [factorR] at h
  split at h
  · split at h
    · split at h
      · exact absurd h (by simp)
      · simp only [RRes.ok.injEq] at h
        subst h
        exact ⟨le_refl 0, zero_le_one⟩
      · simp only [RRes.ok.injEq] at h
        subst h
        exact rawFn_mem P cfg _ hrf0 hrf1
    · exact absurd h (by simp)
  · split at h
    · simp only [RRes.ok.injEq] at h
      subst h
      exact rawFn_mem P cfg _ hrf0 hrf1
    · exact absurd h (by simp)

/-- A contributing loop iteration contributes the factor's own weight
and a factor score in `[0,1]`, given the constructor's parameter
clamps. -/
lemma stepFactor_contrib (P : Params) (raw : String → Option RawVal)
    (quality : String → Option ℝ) (f : String) (cfg : FactorCfg) (w fs : ℝ)
    (hrf0 : 0 ≤ P.r_floor) (hrf1 : P.r_floor ≤ 1) (hqf0 : 0 ≤ P.q_floor)
    (hqf1 : P.q_floor ≤ 1) (hqw0 : 0 ≤ P.q_weight) (hqw1 : P.q_weight ≤ 1)
    (hqe : 0 ≤ P.qual_exp)
    (h : stepFactor P raw quality f cfg = .contrib w fs) :
    w = cfg.weight ∧ 0 ≤ fs ∧ fs ≤ 1 := by
  simp only [stepFactor] at h
  split at h
  · exact absurd h (by simp)
  · split at h
    · exact absurd h (by simp)
    · split at h
      · exact absurd h (by simp)
      · exact absurd h (by simp)
      · rename_i r hr
        split at h
        · exact absurd h (by simp)
        · split at h
          · simp only [StepOut.contrib.injEq] at h
            obtain ⟨hw, hfs⟩ := h
            subst hw
            subst hfs
            exact ⟨rfl, factorR_mem P cfg _ r hrf0 hrf1 hr⟩
          · split at h
            · exact absurd h (by simp)
            · rename_i qn hqn
              simp only [StepOut.contrib.injEq] at h
              obtain ⟨hw, hfs⟩ := h
              subst hw
              subst hfs
              have hrmem := factorR_mem P cfg _ r hrf0 hrf1 hr
              have hqmem := qualFn_mem P _ qn hqf1 hqe hqn
              refine ⟨rfl, ?_⟩
              exact blend_mem P r qn hrmem.1 hrmem.2 (le_trans hqf0 hqmem.1)
                hqmem.2 hqw0 hqw1

/-- The loop keeps `0 ≤ weighted_sum ≤ total_weight`, hence any
returned score lies in `[0,1]`. -/
lemma scoreFrom_mem (P : Params) (raw : String → Option RawVal)
    (quality : String → Option ℝ)
    (hrf0 : 0 ≤ P.r_floor) (hrf1 : P.r_floor ≤ 1) (hqf0 : 0 ≤ P.q_floor)
    (hqf1 : P.q_floor ≤ 1) (hqw0 : 0 ≤ P.q_weight) (hqw1 : P.q_weight ≤ 1)
    (hqe : 0 ≤ P.qual_exp) :
    ∀ (l : List (String × FactorCfg)) (ws tw s : ℝ),
      (∀ p ∈ l, 0 < p.2.weight) → 0 ≤ ws → ws ≤ tw →
      scoreFrom P raw quality l ws tw = some s → 0 ≤ s ∧ s ≤ 1 := by
  intro l
  induction l with
  | nil =>
    intro ws tw s _ hws hwt h
    simp only [scoreFrom] at h
    have hs := Option.some.inj h
    subst hs
    split
    · rename_i htw
      have htwpos : 0 < tw := lt_of_le_of_ne (le_trans hws hwt) (Ne.symm htw)
      exact ⟨div_nonneg hws htwpos.le, (div_le_one htwpos).mpr hwt⟩
    · exact ⟨le_refl 0, zero_le_one⟩
  | cons p rest ih =>
    obtain ⟨f, cfg⟩ := p
    intro ws tw s hw hws hwt h
    simp only [scoreFrom] at h
    split at h
    · exact ih ws tw s (fun q hq => hw q (List.mem_cons_of_mem _ hq)) hws hwt h
    · exact absurd h (by simp)
    · have hs := Option.some.inj h
      subst hs
      exact ⟨le_refl 0, zero_le_one⟩
    · rename_i w fs hstep
      have hc := stepFactor_contrib P raw quality f cfg w fs hrf0 hrf1 hqf0
        hqf1 hqw0 hqw1 hqe hstep
      obtain ⟨hwc, hfs0, hfs1⟩ := hc
      have hwpos : 0 < w := by
        rw [hwc]
        exact hw (f, cfg) (List.mem_cons_self _ _)
      refine ih (ws + w * fs) (tw + w) s
        (fun q hq => hw q (List.mem_cons_of_mem _ hq)) ?_ ?_ h
      · nlinarith
      · nlinarith

/-- For a nice_to_have factor and a positive epsilon the nudged lower
bound is strictly below the target. -/
lemma nudgedL_lt_target (eps : ℝ) (cfg : FactorCfg) (heps : 0 < eps)
    (hm : cfg.mode = "nice_to_have") : nudgedL eps cfg < cfg.target := by
  unfold nudgedL
  split
  · linarith
  · rename_i hcond
    push_neg at hcond
    exact hcond hm

/-- For a nice_to_have factor and a positive epsilon the nudged upper
bound is strictly above the target. -/
lemma nudgedU_gt_target (eps : ℝ) (cfg : FactorCfg) (heps : 0 < eps)
    (hm : cfg.mode = "nice_to_have") : cfg.target < nudgedU eps cfg := by
  unfold nudgedU
  split
  · linarith
  · rename_i hcond
    push_neg at hcond
    exact hcond hm

/-- Inversion of a successful single-factor validation: the mode,
multi flag, target and weight are preserved, the weight is positive,
the stored bounds satisfy `lower ≤ target ≤ upper`, and for a
nice_to_have factor with a positive nudge epsilon the bounds are
strict. -/
lemma validateFactor_ok (eps : ℝ) (cfg c : FactorCfg)
    (h : validateFactor eps cfg = .ok c) :
    c.mode = cfg.mode ∧ c.multi = cfg.multi ∧ c.target = cfg.target ∧
    c.weight = cfg.weight ∧ 0 < c.weight ∧
    c.l ≤ c.target ∧ c.target ≤ c.u ∧
    (0 < eps → cfg.mode = "nice_to_have" → c.l < c.target ∧ c.target < c.u) := by
  simp only [validateFactor] at h
  split at h
  · exact absurd h (by simp)
  · split at h
    · exact absurd h (by simp)
    · split at h
      · exact absurd h (by simp)
      · rename_i hwpos
        rw [not_not] at hwpos
        split at h
        · exact absurd h (by simp)
        · rename_i hbounds
          rw [not_not] at hbounds
          split at h
          · split at h
            · exact absurd h (by simp)
            · have hc := Except.ok.inj h
              subst hc
              refine ⟨rfl, rfl, rfl, rfl, hwpos, ?_⟩
              simp only [FactorCfg.l, FactorCfg.u, Option.getD_some]
              exact ⟨hbounds.1, hbounds.2, fun heps hmode =>
                ⟨nudgedL_lt_target eps cfg heps hmode,
                 nudgedU_gt_target eps cfg heps hmode⟩⟩
          · have hc := Except.ok.inj h
            subst hc
            refine ⟨rfl, rfl, rfl, rfl, hwpos, ?_⟩
            simp only [FactorCfg.l, FactorCfg.u, Option.getD_some]
            exact ⟨hbounds.1, hbounds.2, fun heps hmode =>
              ⟨nudgedL_lt_target eps cfg heps hmode,
               nudgedU_gt_target eps cfg heps hmode⟩⟩

/-- Every factor config of a successfully validated profile is the
successful validation of some input config. -/
lemma validateProfile_mem (eps : ℝ) :
    ∀ (l out : List (String × FactorCfg)), validateProfile eps l = .ok out →
      ∀ p ∈ out, ∃ cfg0, validateFactor eps cfg0 = .ok p.2 := by
  intro l
  induction l with
  | nil =>
    intro out h p hp
    simp only [validateProfile] at h
    have hout := Except.ok.inj h
    subst hout
    exact absurd hp (List.not_mem_nil p)
  | cons q rest ih =>
    obtain ⟨f, cfg⟩ := q
    intro out h p hp
    simp only [validateProfile] at h
    cases hc : validateFactor eps cfg with
    | error e =>
      rw [hc] at h
      exact absurd h (by simp)
    | ok c =>
      rw [hc] at h
      cases hr : validateProfile eps rest with
      | error e =>
        rw [hr] at h
        exact absurd h (by simp)
      | ok r =>
        rw [hr] at h
        have hout := Except.ok.inj h
        subst hout
        rcases List.mem_cons.mp hp with hhead | htail
        · subst hhead
          exact ⟨cfg, hc⟩
        · exact ih r hr p htail

/-- Inversion of a successful construction: the stored parameters are
the clamped constructor arguments and the stored profile is the
successfully validated input profile. -/
lemma mkScorer_ok (profile : List (String × FactorCfg)) (mq : ℤ)
    (qf qw qe rf tol eps : ℝ) (S : Scorer)
    (h : mkScorer profile mq qf qw qe rf tol eps = .ok S) :
    S.params = mkParams mq qf qw qe rf tol eps ∧
    validateProfile eps profile = .ok S.profile := by
  simp only [mkScorer, mkParams] at h
  cases hv : validateProfile eps profile with
  | error e =>
    rw [hv] at h
    exact absurd h (by simp [Except.map])
  | ok prof =>
    rw [hv] at h
    simp only [Except.map] at h
    have hS := Except.ok.inj h
    subst hS
    exact ⟨rfl, rfl⟩

/-- Basic interval facts about the constructor's parameter clamps. -/
lemma mkParams_bounds (mq : ℤ) (qf qw qe rf tol eps : ℝ) :
    0 ≤ (mkParams mq qf qw qe rf tol eps).q_floor ∧
    (mkParams mq qf qw qe rf tol eps).q_floor ≤ 1 ∧
    0 ≤ (mkParams mq qf qw qe rf tol eps).q_weight ∧
    (mkParams mq qf qw qe rf tol eps).q_weight ≤ 1 ∧
    0 ≤ (mkParams mq qf qw qe rf tol eps).qual_exp ∧
    0 ≤ (mkParams mq qf qw qe rf tol eps).r_floor ∧
    (mkParams mq qf qw qe rf tol eps).r_floor ≤ 1 := by
  simp only [mkParams]
  refine ⟨le_max_left 0 _, max_le (by norm_num) (min_le_right _ _),
    le_max_left 0 _, max_le (by norm_num) (min_le_right _ _),
    le_max_left 0 _, le_max_left 0 _,
    max_le (by norm_num) (min_le_right _ _)⟩

/-- Appending a skipping factor in the middle of the profile does not
change the loop's result, from any accumulator state. -/
lemma scoreFrom_skip_middle (P : Params) (raw : String → Option RawVal)
    (quality : String → Option ℝ) (f : String) (cfg : FactorCfg)
    (post : List (String × FactorCfg))
    (hskip : stepFactor P raw quality f cfg = .skip) :
    ∀ (pre : List (String × FactorCfg)) (ws tw : ℝ),
      scoreFrom P raw quality (pre ++ (f, cfg) :: post) ws tw =
      scoreFrom P raw quality (pre ++ post) ws tw := by
  intro pre
  induction pre with
  | nil =>
    intro ws tw
    simp only [List.nil_append, scoreFrom, hskip]
  | cons q rest ih =>
    obtain ⟨g, c⟩ := q
    intro ws tw
    simp only [List.cons_append, scoreFrom]
    cases hstep : stepFactor P raw quality g c with
    | skip => exact ih ws tw
    | exc => rfl
    | stop => rfl
    | contrib w fs => exact ih (ws + w * fs) (tw + w)

/-- If some factor in the profile short-circuits (must_have failure)
and no earlier factor raises, the whole score is `0`, whatever comes
after it. -/
lemma scoreFrom_stop_middle (P : Params) (raw : String → Option RawVal)
    (quality : String → Option ℝ) (f : String) (cfg : FactorCfg)
    (post : List (String × FactorCfg))
    (hstop : stepFactor P raw quality f cfg = .stop) :
    ∀ (pre : List (String × FactorCfg)) (ws tw : ℝ),
      (∀ p ∈ pre, stepFactor P raw quality p.1 p.2 ≠ .exc) →
      scoreFrom P raw quality (pre ++ (f, cfg) :: post) ws tw = some 0 := by
  intro pre
  induction pre with
  | nil =>
    intro ws tw _
    simp only [List.nil_append, scoreFrom, hstop]
  | cons q rest ih =>
    obtain ⟨g, c⟩ := q
    intro ws tw hexc
    simp only [List.cons_append, scoreFrom]
    cases hstep : stepFactor P raw quality g c with
    | skip =>
      exact ih ws tw (fun p hp => hexc p (List.mem_cons_of_mem _ hp))
    | exc =>
      exact absurd hstep (hexc (g, c) (List.mem_cons_self _ _))
    | stop => rfl
    | contrib w fs =>
      exact ih (ws + w * fs) (tw + w)
        (fun p hp => hexc p (List.mem_cons_of_mem _ hp))

/-!  Claims. -/

/-- C1 (amended): for every profile accepted by construction and every
raw/quality input mapping, whenever `score_property` returns a float
(rather than raising, which the counterexample `c1_counterexample`
shows it can at `qual_exp = 0`), that float lies in `[0,1]`: each
factor score lies in `[0,1]` and the result is either a short-circuit
`0`, the fallback `0` for no contributing factor, or a weighted
average of the factor scores. -/
theorem c1_score_in_unit_interval (profile : List (String × FactorCfg))
    (mq : ℤ) (qf qw qe rf tol eps : ℝ) (S : Scorer)
    (raw : String → Option RawVal) (quality : String → Option ℝ) (s : ℝ)
    (hmk : mkScorer profile mq qf qw qe rf tol eps = .ok S)
    (hscore : scoreProperty S.params S.profile raw quality = some s) :
    0 ≤ s ∧ s ≤ 1 := by
  obtain ⟨hp, hv⟩ := mkScorer_ok profile mq qf qw qe rf tol eps S hmk
  obtain ⟨h1, h2, h3, h4, h5, h6, h7⟩ := mkParams_bounds mq qf qw qe rf tol eps
  rw [← hp] at h1 h2 h3 h4 h5 h6 h7
  refine scoreFrom_mem S.params raw quality h6 h7 h1 h2 h3 h4 h5 S.profile
    0 0 s ?_ (le_refl 0) (le_refl 0) hscore
  intro p hpmem
  obtain ⟨cfg0, hok⟩ := validateProfile_mem eps profile S.profile hv p hpmem
  exact (validateFactor_ok eps cfg0 p.2 hok).2.2.2.2.1

/-- C1 counterexample: the profile `[("f", cfgNice)]` is accepted by
construction with `qual_exp = 0`, yet `score_property` on an input
with a quality rating raises `ZeroDivisionError` in `_qual`
(modelled: returns `none`), so it does not return a float in `[0,1]`
as the claim states. -/
theorem c1_counterexample :
    mkScorer [("f", cfgNice)] 5 (1/10) (8/10) 0 (1/20) 0 (1/1000000) =
      .ok ⟨pQe0, [("f", cfgNice)]⟩ ∧
    scoreProperty pQe0 [("f", cfgNice)] raw1 qual5 = none := by
  constructor
  · norm_num [mkScorer, mkParams, validateProfile, validateFactor, nudgedL,
      nudgedU, cfgNice, pQe0, Except.map, allowedAgg]
  · norm_num [scoreProperty, scoreFrom, stepFactor, factorR, rawFn, qualFn,
      blend, raw1, qual5, cfgNice, pQe0, mkParams, FactorCfg.l, FactorCfg.u,
      Real.exp_zero]
    rfl

/-- C1 witness: a concrete accepted profile and input on which
`score_property` returns `1.0`, which the theorem places in `[0,1]`. -/
theorem c1_score_in_unit_interval_witness :
    mkScorer [("f", cfgNice)] 5 (1/10) (8/10) 1 (1/20) 0 (1/1000000) =
      .ok ⟨pDef, [("f", cfgNice)]⟩ ∧
    scoreProperty pDef [("f", cfgNice)] raw1 qualNone = some 1 ∧
    (0 ≤ (1 : ℝ) ∧ (1 : ℝ) ≤ 1) := by
  have hmk : mkScorer [("f", cfgNice)] 5 (1/10) (8/10) 1 (1/20) 0 (1/1000000) =
      .ok ⟨pDef, [("f", cfgNice)]⟩ := by
    norm_num [mkScorer, mkParams, validateProfile, validateFactor, nudgedL,
      nudgedU, cfgNice, pDef, Except.map, allowedAgg]
  have hsc : scoreProperty pDef [("f", cfgNice)] raw1 qualNone = some 1 := by
    norm_num [scoreProperty, scoreFrom, stepFactor, factorR, rawFn, qualFn,
      blend, raw1, qualNone, cfgNice, pDef, mkParams, FactorCfg.l, FactorCfg.u]
    rw [if_neg (by decide : ¬ ("nice_to_have" = "irrelevant"))]
    norm_num
  exact ⟨hmk, hsc,
    c1_score_in_unit_interval [("f", cfgNice)] 5 (1/10) (8/10) 1 (1/20) 0
      (1/1000000) ⟨pDef, [("f", cfgNice)]⟩ raw1 qualNone 1 hmk hsc⟩

/-- C2 (confirmed): if an evaluated must_have factor (raw value
present, raw-match computed as `0`) appears anywhere in the profile
and no earlier factor raises, `score_property` returns `0`, whatever
the factors after it are (the loop `return 0.0` short-circuit). -/
theorem c2_must_have_failure_short_circuits (P : Params)
    (raw : String → Option RawVal) (quality : String → Option ℝ)
    (pre post : List (String × FactorCfg)) (f : String) (cfg : FactorCfg)
    (val : RawVal)
    (hmode : cfg.mode = "must_have")
    (hraw : raw f = some val)
    (hr : factorR P cfg val = .ok 0)
    (hpre : ∀ p ∈ pre, stepFactor P raw quality p.1 p.2 ≠ .exc) :
    scoreProperty P (pre ++ (f, cfg) :: post) raw quality = some 0 := by
  have hstop : stepFactor P raw quality f cfg = .stop := by
    simp only [stepFactor, hmode, hraw, hr]
    norm_num
    exact fun h => absurd h (by decide)
  exact scoreFrom_stop_middle P raw quality f cfg post hstop pre 0 0 hpre

/-- C2 witness: the concrete must_have factor at target `15` with raw
value `16` and zero tolerance fails and forces the property score to
`0`. -/
theorem c2_must_have_failure_short_circuits_witness :
    rawM "m" = some (.scalar 16) ∧
    factorR pDef cfgMust (.scalar 16) = .ok 0 ∧
    scoreProperty pDef [("m", cfgMust)] rawM qualNone = some 0 := by
  have hraw : rawM "m" = some (.scalar 16) := by norm_num [rawM]
  have hr : factorR pDef cfgMust (.scalar 16) = .ok 0 := by
    norm_num [factorR, rawFn, cfgMust, pDef, mkParams, FactorCfg.l, FactorCfg.u]
  exact ⟨hraw, hr,
    c2_must_have_failure_short_circuits pDef rawM qualNone [] [] "m" cfgMust
      (.scalar 16) rfl hraw hr (fun p hp => absurd hp (List.not_mem_nil p))⟩

/-- C3 (amended): for every `quality_weight` in `[0,1)` — but not at
`quality_weight = 1`, see `c3_counterexample` — the geometric blend
`r^(1-qw) * qn^qw` is `0` whenever the raw-match `r` is `0`, for every
quality score `qn`. -/
theorem c3_zero_raw_match_blends_to_zero (P : Params) (qn : ℝ)
    (hqw : P.q_weight < 1) : blend P 0 qn = 0 := by
  unfold blend
  rw [Real.zero_rpow (by linarith : (1 : ℝ) - P.q_weight ≠ 0), zero_mul]

/-- C3 counterexample: at `quality_weight = 1` (inside the claim's
range `[0,1]`) the blend is `0 ** 0.0 * qn ** 1.0 = qn` — Python's
`0.0 ** 0.0 == 1.0` — so a quality score of `1` fully rescues a zero
raw-match: the blend is `1`, not `0`. -/
theorem c3_counterexample :
    0 ≤ pQw1.q_weight ∧ pQw1.q_weight ≤ 1 ∧ pQw1.q_floor ≤ 1 ∧
    blend pQw1 0 1 = 1 := by
  refine ⟨?_, ?_, ?_, ?_⟩ <;>
    norm_num [pQw1, mkParams, blend, Real.rpow_zero, Real.one_rpow]

/-- C3 witness: with the default `quality_weight = 0.8 < 1` a zero
raw-match blends with quality `0.5` to `0`. -/
theorem c3_zero_raw_match_blends_to_zero_witness :
    pDef.q_weight < 1 ∧ blend pDef 0 (1/2) = 0 := by
  have hqw : pDef.q_weight < 1 := by norm_num [pDef, mkParams]
  exact ⟨hqw, c3_zero_raw_match_blends_to_zero pDef (1/2) hqw⟩

/-- C4 (confirmed): a multi factor whose raw list is nonempty but has
no value inside `[lower, upper]` aggregates to "no value"
(`.ok none`), which the caller turns into raw-match `0`: a must_have
factor then zeroes the whole property score (given no earlier factor
raises), and a nice_to_have factor still contributes its full weight
with `r = 0` (raw-only `fs = 0`, or `fs = blend 0 qn` with a quality
rating) — it is not skipped. -/
theorem c4_empty_band_is_forced_zero (P : Params)
    (raw : String → Option RawVal) (quality : String → Option ℝ)
    (pre post : List (String × FactorCfg)) (f : String) (cfg : FactorCfg)
    (xs : List ℝ)
    (hm : cfg.multi = true)
    (hraw : raw f = some (.vlist xs))
    (hout : ∀ x ∈ xs, x < cfg.l ∨ cfg.u < x)
    (hpre : ∀ p ∈ pre, stepFactor P raw quality p.1 p.2 ≠ .exc) :
    aggregate cfg xs = .ok none ∧
    factorR P cfg (.vlist xs) = .ok 0 ∧
    (cfg.mode = "must_have" →
      scoreProperty P (pre ++ (f, cfg) :: post) raw quality = some 0) ∧
    (cfg.mode = "nice_to_have" → quality f = none →
      stepFactor P raw quality f cfg = .contrib cfg.weight 0) ∧
    (cfg.mode = "nice_to_have" → ∀ qv qn, quality f = some qv →
      qualFn P qv = some qn →
      stepFactor P raw quality f cfg = .contrib cfg.weight (blend P 0 qn)) := by
  have hfil : xs.filter (fun v => decide (cfg.l ≤ v ∧ v ≤ cfg.u)) = [] := by
    rw [List.filter_eq_nil_iff]
    intro a ha
    rcases hout a ha with hlo | hhi <;> simp <;> intro h1 <;> nlinarith
  have hagg : aggregate cfg xs = .ok none := by
    simp only [aggregate, hfil, if_pos]
  have hfr : factorR P cfg (.vlist xs) = .ok 0 := by
    simp only [factorR, hm, if_pos, hagg]
  refine ⟨hagg, hfr, ?_, ?_, ?_⟩
  · intro hmode
    have hstop : stepFactor P raw quality f cfg = .stop := by
      simp only [stepFactor, hmode, hraw, hfr]
      norm_num
      exact fun h => absurd h (by decide)
    exact scoreFrom_stop_middle P raw quality f cfg post hstop pre 0 0 hpre
  · intro hmode hq
    simp only [stepFactor, hmode, hraw, hfr, hq]
    rw [if_neg (by decide : ¬ ("nice_to_have" = "irrelevant"))]
    exact if_neg (fun hc => absurd hc.1 (by decide))
  · intro hmode qv qn hq hqn
    simp only [stepFactor, hmode, hraw, hfr, hq, hqn]
    rw [if_neg (by decide : ¬ ("nice_to_have" = "irrelevant"))]
    exact if_neg (fun hc => absurd hc.1 (by decide))

/-- C4 witness: the multi nice_to_have factor with band `[0,2]` and
raw list `[10]` aggregates to none and contributes weight `1` with
factor score `0`; the must_have variant zeroes the property. -/
theorem c4_empty_band_is_forced_zero_witness :
    (∀ x ∈ [(10 : ℝ)], x < cfgMultiNice.l ∨ cfgMultiNice.u < x) ∧
    aggregate cfgMultiNice [10] = .ok none ∧
    stepFactor pDef rawG qualNone "g" cfgMultiNice =
      .contrib cfgMultiNice.weight 0 ∧
    scoreProperty pDef [("g", cfgMultiMust)] rawH qualNone = some 0 := by
  have hout : ∀ x ∈ [(10 : ℝ)], x < cfgMultiNice.l ∨ cfgMultiNice.u < x := by
    intro x hx
    simp only [List.mem_singleton] at hx
    subst hx
    right
    norm_num [cfgMultiNice, FactorCfg.u]
  have houtM : ∀ x ∈ [(100 : ℝ)], x < cfgMultiMust.l ∨ cfgMultiMust.u < x := by
    intro x hx
    simp only [List.mem_singleton] at hx
    subst hx
    right
    norm_num [cfgMultiMust, FactorCfg.u]
  have hrawg : rawG "g" = some (.vlist [10]) := by norm_num [rawG]
  have hrawh : rawH "g" = some (.vlist [100]) := by norm_num [rawH]
  have hc := c4_empty_band_is_forced_zero pDef rawG qualNone [] [] "g"
    cfgMultiNice [10] rfl hrawg hout
    (fun p hp => absurd hp (List.not_mem_nil p))
  have hcM := c4_empty_band_is_forced_zero pDef rawH qualNone [] [] "g"
    cfgMultiMust [100] rfl hrawh houtM
    (fun p hp => absurd hp (List.not_mem_nil p))
  exact ⟨hout, hc.1, hc.2.2.2.1 rfl rfl, hcM.2.2.1 rfl⟩

/-- C5 (amended): a factor with no raw value in the input is silently
excluded from the property score — it contributes to neither the
numerator nor the denominator of the weighted average.  (The claim's
second half is false: a multi factor whose collection is empty after
band filtering is NOT excluded — see `c5_counterexample` — it is
forced to raw-match `0` and keeps its full weight, per C4.) -/
theorem c5_missing_raw_is_skipped (P : Params)
    (raw : String → Option RawVal) (quality : String → Option ℝ)
    (pre post : List (String × FactorCfg)) (f : String) (cfg : FactorCfg)
    (hraw : raw f = none) :
    scoreProperty P (pre ++ (f, cfg) :: post) raw quality =
      scoreProperty P (pre ++ post) raw quality := by
  have hskip : stepFactor P raw quality f cfg = .skip := by
    simp only [stepFactor, hraw]
    split <;> rfl
  exact scoreFrom_skip_middle P raw quality f cfg post hskip pre 0 0

/-- C5 counterexample: the multi nice_to_have factor `"g"` with raw
list `[10]` (nonempty, entirely outside the band `[0,2]`) is NOT
excluded from the score: alongside a perfect factor `"f"` the score is
`0.5`, whereas dropping `"g"` from the profile gives `1.0`. -/
theorem c5_counterexample :
    scoreProperty pDef [("g", cfgMultiNice), ("f", cfgNice)] rawG qualNone =
      some (1/2) ∧
    scoreProperty pDef [("f", cfgNice)] rawG qualNone = some 1 ∧
    ((1 : ℝ)/2 ≠ 1) := by
  refine ⟨?_, ?_, by norm_num⟩
  · norm_num +decide [scoreProperty, scoreFrom, stepFactor, factorR, aggregate,
      rawFn, rawG, qualNone, cfgMultiNice, cfgNice, pDef, mkParams,
      FactorCfg.l, FactorCfg.u, List.filter_cons, List.filter_nil,
      decide_eq_true_eq]
  · norm_num +decide [scoreProperty, scoreFrom, stepFactor, factorR, rawFn,
      rawG, qualNone, cfgNice, pDef, mkParams, FactorCfg.l, FactorCfg.u]

/-- C5 witness: factor `"h"` has no raw value, so scoring the profile
with `"h"` equals scoring without it. -/
theorem c5_missing_raw_is_skipped_witness :
    raw1 "h" = none ∧
    scoreProperty pDef [("h", cfgNice), ("f", cfgNice)] raw1 qualNone =
      scoreProperty pDef [("f", cfgNice)] raw1 qualNone := by
  have hraw : raw1 "h" = none := by norm_num +decide [raw1]
  exact ⟨hraw,
    c5_missing_raw_is_skipped pDef raw1 qualNone [] [("f", cfgNice)] "h"
      cfgNice hraw⟩

/-- C6 (confirmed): for a nice_to_have factor, values outside
`[lower, upper]` give raw-match exactly `0` (boundary values count as
in-band), every in-band value gives at least `raw_floor`, and in-band
the decay is `1` on the target's good side and
`max raw_floor (1 - dist/denominator)` past the target, with
denominator `upper - target` for direction `-1` and `target - lower`
for direction `+1`. -/
theorem c6_nice_to_have_raw_match (P : Params) (cfg : FactorCfg) (x : ℝ)
    (hmode : cfg.mode = "nice_to_have")
    (hrf0 : 0 ≤ P.r_floor) (hrf1 : P.r_floor ≤ 1) :
    ((x < cfg.l ∨ cfg.u < x) → rawFn P cfg x = 0) ∧
    (cfg.l ≤ x → x ≤ cfg.u → P.r_floor ≤ rawFn P cfg x) ∧
    (cfg.direction = -1 → cfg.l ≤ x → x ≤ cfg.u → x ≤ cfg.target →
      rawFn P cfg x = 1) ∧
    (cfg.direction = -1 → cfg.l ≤ x → x ≤ cfg.u → cfg.target < x →
      rawFn P cfg x =
        max P.r_floor (1 - (x - cfg.target) / (cfg.u - cfg.target))) ∧
    (cfg.direction = 1 → cfg.l ≤ x → x ≤ cfg.u → cfg.target ≤ x →
      rawFn P cfg x = 1) ∧
    (cfg.direction = 1 → cfg.l ≤ x → x ≤ cfg.u → x < cfg.target →
      rawFn P cfg x =
        max P.r_floor (1 - (cfg.target - x) / (cfg.target - cfg.l))) := by
  have hm' : ¬ cfg.mode = "must_have" := by rw [hmode]; decide
  simp only [rawFn, if_neg hm']
  refine ⟨?_, ?_, ?_, ?_, ?_, ?_⟩
  · intro h
    rw [if_pos h]
  · intro h1 h2
    rw [if_neg (by rw [not_or]; exact ⟨not_lt.mpr h1, not_lt.mpr h2⟩)]
    exact le_max_left _ _
  · intro hd h1 h2 h3
    rw [if_neg (by rw [not_or]; exact ⟨not_lt.mpr h1, not_lt.mpr h2⟩), hd]
    rw [if_pos (by norm_num : (-1 : ℤ) < 0), if_pos h3]
    exact max_eq_right hrf1
  · intro hd h1 h2 h3
    rw [if_neg (by rw [not_or]; exact ⟨not_lt.mpr h1, not_lt.mpr h2⟩), hd]
    rw [if_pos (by norm_num : (-1 : ℤ) < 0), if_neg (not_le.mpr h3)]
  · intro hd h1 h2 h3
    rw [if_neg (by rw [not_or]; exact ⟨not_lt.mpr h1, not_lt.mpr h2⟩), hd]
    rw [if_neg (by norm_num : ¬ (1 : ℤ) < 0), if_pos h3]
    exact max_eq_right hrf1
  · intro hd h1 h2 h3
    rw [if_neg (by rw [not_or]; exact ⟨not_lt.mpr h1, not_lt.mpr h2⟩), hd]
    rw [if_neg (by norm_num : ¬ (1 : ℤ) < 0), if_neg (not_le.mpr h3)]

/-- C6 witness: for the band `[0,2]`, target `1`, direction `-1` and
value `1.5`, the raw-match is the floored linear decay
`max raw_floor (1 - 0.5/1)`. -/
theorem c6_nice_to_have_raw_match_witness :
    cfgNice.mode = "nice_to_have" ∧ 0 ≤ pDef.r_floor ∧ pDef.r_floor ≤ 1 ∧
    rawFn pDef cfgNice (3/2) =
      max pDef.r_floor
        (1 - ((3 : ℝ)/2 - cfgNice.target) / (cfgNice.u - cfgNice.target)) := by
  have h0 : 0 ≤ pDef.r_floor := by norm_num [pDef, mkParams]
  have h1 : pDef.r_floor ≤ 1 := by norm_num [pDef, mkParams]
  refine ⟨rfl, h0, h1, ?_⟩
  exact (c6_nice_to_have_raw_match pDef cfgNice (3/2) rfl h0 h1).2.2.2.1 rfl
    (by norm_num [cfgNice, FactorCfg.l]) (by norm_num [cfgNice, FactorCfg.u])
    (by norm_num [cfgNice])

/-- C7 (confirmed): after a successful construction with
`margin_epsilon > 0`, every stored factor config satisfies
`lower ≤ target ≤ upper`, and strictly (`lower < target < upper`) for
nice_to_have factors, so the decay denominators `upper - target` and
`target - lower` are nonzero.  The embedded `scoreProperty` reads the
profile without modifying it, so the invariant persists across
calls. -/
theorem c7_validated_bounds_invariant (eps : ℝ)
    (profile out : List (String × FactorCfg)) (heps : 0 < eps)
    (h : validateProfile eps profile = .ok out) :
    ∀ p ∈ out, (p.2.l ≤ p.2.target ∧ p.2.target ≤ p.2.u) ∧
      (p.2.mode = "nice_to_have" → p.2.l < p.2.target ∧ p.2.target < p.2.u) := by
  intro p hp
  obtain ⟨cfg0, hok⟩ := validateProfile_mem eps profile out h p hp
  obtain ⟨hm, _, _, _, _, hl, hu, hstrict⟩ := validateFactor_ok eps cfg0 p.2 hok
  exact ⟨⟨hl, hu⟩, fun hmode => hstrict heps (hm.symm.trans hmode)⟩

/-- C7 witness: validating the nice_to_have factor with band `[0,2]`
and target `1` keeps it unchanged, and the invariant holds strictly. -/
theorem c7_validated_bounds_invariant_witness :
    0 < (1/1000000 : ℝ) ∧
    validateProfile (1/1000000) [("f", cfgNice)] = .ok [("f", cfgNice)] ∧
    (cfgNice.l ≤ cfgNice.target ∧ cfgNice.target ≤ cfgNice.u) ∧
    (cfgNice.l < cfgNice.target ∧ cfgNice.target < cfgNice.u) := by
  have heps : 0 < (1/1000000 : ℝ) := by norm_num
  have hv : validateProfile (1/1000000) [("f", cfgNice)] =
      .ok [("f", cfgNice)] := by
    norm_num [validateProfile, validateFactor, nudgedL, nudgedU, cfgNice,
      allowedAgg]
  have hc := c7_validated_bounds_invariant (1/1000000) [("f", cfgNice)]
    [("f", cfgNice)] heps hv ("f", cfgNice) (by simp)
  exact ⟨heps, hv, hc.1, hc.2 rfl⟩

/-- C8 (amended): for every `qual_exp > 0` — but not at `qual_exp = 0`,
where `_qual` raises `ZeroDivisionError`, see `c8_counterexample` —
every `max_quality ≥ 2`, every `quality_floor ∈ [0,1]` and every
numeric rating `q`, the quality normaliser evaluates without error to
a value in `[quality_floor, 1]`, clamping `q` into `[1, max_quality]`
and warping exponentially whenever `qual_exp ≠ 1`. -/
theorem c8_quality_normalizer_total_and_bounded (P : Params) (q : ℝ)
    (hqe : 0 < P.qual_exp) (hmq : 2 ≤ P.max_quality)
    (hqf1 : P.q_floor ≤ 1) :
    ∃ v, qualFn P q = some v ∧ P.q_floor ≤ v ∧ v ≤ 1 := by
  obtain ⟨v, hv⟩ := qualFn_some P q hqe (by omega)
  exact ⟨v, hv, qualFn_mem P q v hqf1 hqe.le hv⟩

/-- C8 counterexample: with `qual_exp = 0` — permitted by the spec's
`qual_exp ≥ 0` and accepted unchanged by the constructor's
`max(0.0, qual_exp)` clamp — the warp denominator `exp(0) - 1` is `0`
and `_qual` raises `ZeroDivisionError` instead of returning a value. -/
theorem c8_counterexample :
    pQe0.qual_exp = 0 ∧ qualFn pQe0 3 = none := by
  constructor
  · norm_num [pQe0, mkParams]
  · norm_num [qualFn, pQe0, mkParams, Real.exp_zero]

/-- C8 witness: the default parameters (`qual_exp = 1`,
`max_quality = 5`, `quality_floor = 0.1`) normalise the rating `3`
without error to a value in `[0.1, 1]`. -/
theorem c8_quality_normalizer_total_and_bounded_witness :
    0 < pDef.qual_exp ∧ 2 ≤ pDef.max_quality ∧ pDef.q_floor ≤ 1 ∧
    ∃ v, qualFn pDef 3 = some v ∧ pDef.q_floor ≤ v ∧ v ≤ 1 := by
  have h1 : 0 < pDef.qual_exp := by norm_num [pDef, mkParams]
  have h2 : 2 ≤ pDef.max_quality := by norm_num [pDef, mkParams]
  have h3 : pDef.q_floor ≤ 1 := by norm_num [pDef, mkParams]
  exact ⟨h1, h2, h3,
    c8_quality_normalizer_total_and_bounded pDef 3 h1 h2 h3⟩

/-- C9 (confirmed): a factor configured with `multi` whose raw input
is a non-list value is silently skipped (the loop `continue`s before
computing any raw-match), so the property score over a profile
containing it equals the score over the profile without it — in
particular a must_have factor fed a scalar instead of a list can never
veto the property score. -/
theorem c9_multi_factor_scalar_input_skipped (P : Params)
    (raw : String → Option RawVal) (quality : String → Option ℝ)
    (pre post : List (String × FactorCfg)) (f : String) (cfg : FactorCfg)
    (x : ℝ)
    (hm : cfg.multi = true)
    (hraw : raw f = some (.scalar x)) :
    scoreProperty P (pre ++ (f, cfg) :: post) raw quality =
      scoreProperty P (pre ++ post) raw quality := by
  have hskip : stepFactor P raw quality f cfg = .skip := by
    simp only [stepFactor, hraw, factorR, hm, if_pos]
    split <;> rfl
  exact scoreFrom_skip_middle P raw quality f cfg post hskip pre 0 0

/-- C9 witness: the multi must_have factor `"g"` receives the scalar
`100` (far beyond its target `15`) and is skipped: the score equals
the score without it, namely `1.0`, not a must_have veto `0`. -/
theorem c9_multi_factor_scalar_input_skipped_witness :
    cfgMultiMust.multi = true ∧
    rawS "g" = some (.scalar 100) ∧
    scoreProperty pDef [("g", cfgMultiMust), ("f", cfgNice)] rawS qualNone =
      scoreProperty pDef [("f", cfgNice)] rawS qualNone ∧
    scoreProperty pDef [("f", cfgNice)] rawS qualNone = some 1 := by
  have hraw : rawS "g" = some (.scalar 100) := by norm_num [rawS]
  have hone : scoreProperty pDef [("f", cfgNice)] rawS qualNone = some 1 := by
    norm_num +decide [scoreProperty, scoreFrom, stepFactor, factorR, rawFn,
      rawS, qualNone, cfgNice, pDef, mkParams, FactorCfg.l, FactorCfg.u]
  exact ⟨rfl, hraw,
    c9_multi_factor_scalar_input_skipped pDef rawS qualNone [] [("f", cfgNice)]
      "g" cfgMultiMust 100 rfl hraw, hone⟩

/-- C10 (amended): the constructor clamps `quality_floor`,
`quality_weight` and `raw_floor` into `[0,1]` and `qual_exp` to
`max(0, ·)`, and stores `must_have_tolerance` and `margin_epsilon`
without any validation; construction success never depends on
`max_quality`, `quality_floor`, `quality_weight`, `qual_exp`,
`raw_floor` or `must_have_tolerance`.  It does, however, depend on
`margin_epsilon`: a negative `margin_epsilon` makes the bounds check
fail for a nudge-needing nice_to_have factor, see
`c10_counterexample`. -/
theorem c10_parameter_clamping_and_error_source (mq mq' : ℤ)
    (qf qw qe rf tol eps qf' qw' qe' rf' tol' : ℝ)
    (profile : List (String × FactorCfg)) :
    (mkParams mq qf qw qe rf tol eps).q_floor = max 0 (min qf 1) ∧
    (mkParams mq qf qw qe rf tol eps).q_weight = max 0 (min qw 1) ∧
    (mkParams mq qf qw qe rf tol eps).qual_exp = max 0 qe ∧
    (mkParams mq qf qw qe rf tol eps).r_floor = max 0 (min rf 1) ∧
    (mkParams mq qf qw qe rf tol eps).tol = tol ∧
    (mkParams mq qf qw qe rf tol eps).eps = eps ∧
    isOkE (mkScorer profile mq qf qw qe rf tol eps) =
      isOkE (mkScorer profile mq' qf' qw' qe' rf' tol' eps) := by
  refine ⟨rfl, rfl, rfl, rfl, rfl, rfl, ?_⟩
  simp only [mkScorer, mkParams]
  cases validateProfile eps profile <;> rfl

/-- C10 counterexample: the defect-free nice_to_have factor whose
bounds default to its target is accepted under the default
`margin_epsilon = 1e-6` but makes construction raise under
`margin_epsilon = -1` (the nudge then inverts the bounds), so a
construction error can arise from the engine-wide parameter
`margin_epsilon`, not only from per-factor profile defects. -/
theorem c10_counterexample :
    isOkE (mkScorer [("n", cfgNudge)] 5 (1/10) (8/10) 1 (1/20) 0 (-1)) =
      false ∧
    isOkE (mkScorer [("n", cfgNudge)] 5 (1/10) (8/10) 1 (1/20) 0
      (1/1000000)) = true := by
  constructor
  · norm_num [mkScorer, mkParams, validateProfile, validateFactor, nudgedL,
      nudgedU, cfgNudge, isOkE, Except.map, allowedAgg]
  · norm_num [mkScorer, mkParams, validateProfile, validateFactor, nudgedL,
      nudgedU, cfgNudge, isOkE, Except.map, allowedAgg]

